import Mathlib

/-!
Shallow embedding of the fief-python client core: token decoding, claim
validation, OAuth2 flow operations and the request authentication
orchestration, together with proofs of the behavioural properties stated
in the specification. The module fief_client/client.py is absent from the
sources (only its unit tests and the package declaration remain), so the
definitions below are modelled from the specification, the unit tests
serving as corroborating fixtures.
-/

/-- Modelled from the spec: the ClaimSet of section 3, restricted to the
claims the core depends on (the subject identifier, the space-delimited
scope string and the numeric UNIX-timestamp expiry); the absent module
fief_client/client.py stores these in a plain mapping. -/
structure Claims where
  sub : Option String
  scope : Option String
  exp : Option Nat
  deriving DecidableEq, Repr

/-- Modelled from the spec: a symbolic signature on a JWS segment. The
cryptographic primitive is delegated to a JOSE library in the absent
module; it is modelled by recording which key material produced the
signature and with which algorithm, so that verification is equality. -/
structure Signature where
  key : String
  alg : String
  deriving DecidableEq, Repr

/-- Modelled from the spec: a signed compact token (JWS, 3 segments) of
the absent module fief_client/client.py: a header declaring an algorithm
and a key id, a claim payload, a signature, and its raw serialization. -/
structure JWSToken where
  alg : String
  kid : String
  claims : Claims
  sig : Signature
  raw : String
  deriving DecidableEq, Repr

/-- Modelled from the spec: a compact token is either signed (JWS) or
encrypted-then-signed (JWE, 5 segments) whose plaintext is itself a JWS;
a JWE records the key material needed to decrypt it. -/
inductive Token
  | signed (t : JWSToken)
  | encrypted (encKey : String) (inner : JWSToken) (raw : String)
  deriving DecidableEq, Repr

/-- Raw compact serialization of a token. -/
def Token.raw : Token → String
  | .signed t => t.raw
  | .encrypted _ _ r => r

/-- Modelled from the spec: the SigningKeySet of section 3, the
provider's public keys keyed by key id. -/
def SigningKeySet := List (String × String)

/-- Look a key up by key id in a SigningKeySet. -/
def SigningKeySet.find (kid : String) : List (String × String) → Option String
  | [] => none
  | (k, v) :: rest => if kid = k then some v else SigningKeySet.find kid rest

/-- Modelled from the spec: the error taxonomy of section 7 restricted to
validation outcomes (the classes FiefAccessTokenInvalid,
FiefAccessTokenExpired and FiefAccessTokenMissingScope of the absent
module); TokenMissingScope names the missing scopes for diagnostics. -/
inductive FiefError
  | TokenInvalid
  | TokenExpired
  | TokenMissingScope (missing : List String)
  deriving DecidableEq, Repr

/-- Modelled from the spec: the client configuration of the absent Fief
class: provider base URL, client id, client secret, optional decryption
key, plus the signing key set and the exact algorithm the client expects
(section 4.1, step 3). -/
structure FiefClient where
  base_url : String
  client_id : String
  client_secret : String
  encryption_key : Option String
  signing_keys : List (String × String)
  expected_alg : String

/-- Modelled from the spec: section 4.1 step 3, verification of a signed
token. The signing key is resolved by key id from the SigningKeySet; the
signature must verify against the exact algorithm declared in the token
header; any mismatch fails TokenInvalid. -/
def decodeJWS (c : FiefClient) (t : JWSToken) : Except FiefError Claims :=
  if t.alg ≠ c.expected_alg then .error .TokenInvalid
  else
    match SigningKeySet.find t.kid c.signing_keys with
    | none => .error .TokenInvalid
    | some k =>
      if t.sig.key = k ∧ t.sig.alg = t.alg then .ok t.claims
      else .error .TokenInvalid

/-- Modelled from the spec: section 4.1, the Token Decoder. An encrypted
token fails TokenInvalid when no decryption key is configured or when
decryption fails (wrong key); otherwise its plaintext is processed as a
signed token. -/
def decodeToken (c : FiefClient) : Token → Except FiefError Claims
  | .signed t => decodeJWS c t
  | .encrypted encKey inner _ =>
    match c.encryption_key with
    | none => .error .TokenInvalid
    | some k => if k = encKey then decodeJWS c inner else .error .TokenInvalid

/-- Accumulator pass splitting a character list on whitespace runs,
dropping empty fragments, as Python str.split() does. -/
def scopeTokensAux : List Char → List Char → List String
  | cur, [] => if cur.isEmpty then [] else [⟨cur.reverse⟩]
  | cur, ch :: rest =>
    if ch.isWhitespace then
      if cur.isEmpty then scopeTokensAux [] rest
      else ⟨cur.reverse⟩ :: scopeTokensAux [] rest
    else scopeTokensAux (ch :: cur) rest

/-- Modelled from the spec: section 4.2, normalization of the scope
claim: split on whitespace, preserve order, drop empties. -/
def splitScopes (s : String) : List String :=
  scopeTokensAux [] s.toList

/-- Modelled from the spec: the AccessTokenInfo value object of section
3: subject id, ordered sequence of granted scopes, raw access token. -/
structure FiefAccessTokenInfo where
  id : String
  scope : List String
  access_token : String
  deriving DecidableEq, Repr

/-- Modelled from the spec: section 4.2, the Claim Validator. Fails
TokenExpired when exp is present and less than or equal to now; fails
TokenInvalid when the subject claim is absent; normalizes the scope
claim (absent means empty); fails TokenMissingScope naming the missing
scopes when the required scopes are not contained in the granted ones;
otherwise returns the subject id, the full granted-scope sequence and
the raw token. The expiry test is the strict less-or-equal of section
4.2, factored out here. -/
def expiredAt (claims : Claims) (now : Nat) : Bool :=
  match claims.exp with
  | none => false
  | some e => decide (e ≤ now)

/-- Modelled from the spec: section 4.2 continued, the full validation of
a decoded claim set against the required scopes. -/
def validateClaims (claims : Claims) (raw : String) (required_scope : List String)
    (now : Nat) : Except FiefError FiefAccessTokenInfo :=
  if expiredAt claims now then .error .TokenExpired
  else
    match claims.sub with
    | none => .error .TokenInvalid
    | some s =>
      let granted := (claims.scope.map splitScopes).getD []
      let missing := required_scope.filter (fun r => decide (r ∉ granted))
      if missing.isEmpty then .ok ⟨s, granted, raw⟩
      else .error (.TokenMissingScope missing)

/-- Modelled from the spec: section 4.3, validate_access_token of the
absent Fief class: decode the bearer token (4.1), then validate its
claims (4.2), entirely locally. -/
def validate_access_token (c : FiefClient) (tok : Token)
    (required_scope : List String) (now : Nat) :
    Except FiefError FiefAccessTokenInfo :=
  match decodeToken c tok with
  | .error e => .error e
  | .ok claims => validateClaims claims tok.raw required_scope now

/-- Modelled from the spec: section 4.4, the access decision produced by
the Request Authentication Orchestrator. -/
inductive AuthDecision
  | Unauthenticated
  | Forbidden
  | Authorized (info : FiefAccessTokenInfo)
  deriving DecidableEq, Repr

/-- HTTP status code the framework layer surfaces for each decision
(FiefAuth in the absent fief_client/integrations/fastapi.py). -/
def AuthDecision.statusCode : AuthDecision → Nat
  | .Unauthenticated => 401
  | .Forbidden => 403
  | .Authorized _ => 200

/-- Modelled from the spec: section 4.4, the Request Authentication
Orchestrator (FiefAuth.authenticated of the absent integration module).
A missing credential is Unauthenticated; a credential failing decode or
validation is Unauthenticated; a missing-scope failure is Forbidden;
otherwise the decision is Authorized carrying the AccessTokenInfo. -/
def authenticate (c : FiefClient) (credential : Option Token)
    (required_scope : List String) (now : Nat) : AuthDecision :=
  match credential with
  | none => .Unauthenticated
  | some tok =>
    match validate_access_token c tok required_scope now with
    | .error .TokenInvalid => .Unauthenticated
    | .error .TokenExpired => .Unauthenticated
    | .error (.TokenMissingScope _) => .Forbidden
    | .ok info => .Authorized info

/-- Modelled from the spec: a UserInfo profile, an opaque mapping from
string key to string value containing the subject id. -/
abbrev FiefUserInfo := List (String × String)

/-- State of the pluggable Identity Cache Adapter keyed by subject id,
together with a count of outbound profile fetches, used to state the
cache-coherency property. -/
structure CacheState where
  cache : List (String × FiefUserInfo)
  fetchCount : Nat
  deriving DecidableEq, Repr

/-- Read the Identity Cache Adapter. -/
def cacheGet (k : String) : List (String × FiefUserInfo) → Option FiefUserInfo
  | [] => none
  | (k2, v) :: rest => if k = k2 then some v else cacheGet k rest

/-- Write the Identity Cache Adapter, overwriting any entry under the
same subject id. -/
def cacheSet (k : String) (v : FiefUserInfo) :
    List (String × FiefUserInfo) → List (String × FiefUserInfo)
  | [] => [(k, v)]
  | (k2, w) :: rest => if k = k2 then (k, v) :: rest else (k2, w) :: cacheSet k v rest

/-- Modelled from the spec: section 4.4, the current-user path of the
orchestrator for an already validated subject. userinfoNow is what the
provider's profile endpoint would return for this request. With refresh
the cache is bypassed on read but still written; otherwise a cache hit
is returned as is and a miss fetches and writes through. The fetch count
records each outbound userinfo call. -/
def current_user_step (refresh : Bool) (sub : String) (userinfoNow : FiefUserInfo)
    (st : CacheState) : FiefUserInfo × CacheState :=
  if refresh then
    (userinfoNow, ⟨cacheSet sub userinfoNow st.cache, st.fetchCount + 1⟩)
  else
    match cacheGet sub st.cache with
    | some u => (u, st)
    | none => (userinfoNow, ⟨cacheSet sub userinfoNow st.cache, st.fetchCount + 1⟩)

/-- Uppercase hexadecimal digit, as Python percent-encoding emits. -/
def hexDigitUpper (n : Nat) : Char :=
  if n < 10 then Char.ofNat (48 + n) else Char.ofNat (55 + n)

/-- Percent-encoding of one byte. -/
def percentByte (b : Nat) : String :=
  String.mk ['%', hexDigitUpper (b / 16), hexDigitUpper (b % 16)]

/-- UTF-8 bytes of a character, as Python encodes non-safe characters
before percent-encoding them. -/
def utf8Bytes (ch : Char) : List Nat :=
  let n := ch.toNat
  if n < 128 then [n]
  else if n < 2048 then [192 + n / 64, 128 + n % 64]
  else if n < 65536 then [224 + n / 4096, 128 + n / 64 % 64, 128 + n % 64]
  else [240 + n / 262144, 128 + n / 4096 % 64, 128 + n / 64 % 64, 128 + n % 64]

/-- Characters Python urllib never quotes: ASCII letters, digits and
underscore, dot, hyphen, tilde. -/
def alwaysSafe (ch : Char) : Bool :=
  ch.isAlphanum || ch = '_' || ch = '.' || ch = '-' || ch = '~'

/-- Modelled from the spec: form encoding of one character as Python
urllib.parse.quote_plus does: space becomes plus, safe characters stand
unchanged, anything else is percent-encoded byte by byte. -/
def quotePlusChar (ch : Char) : String :=
  if ch = ' ' then "+"
  else if alwaysSafe ch then String.singleton ch
  else String.join ((utf8Bytes ch).map percentByte)

/-- Form encoding of a whole string. -/
def quote_plus (s : String) : String :=
  String.join (s.toList.map quotePlusChar)

/-- Modelled from the spec: Python urllib.parse.urlencode over an
ordered parameter list: key=value pairs joined by ampersands, keys and
values form-encoded. -/
def urlencode : List (String × String) → String
  | [] => ""
  | [p] => quote_plus p.1 ++ "=" ++ quote_plus p.2
  | p :: q :: rest => quote_plus p.1 ++ "=" ++ quote_plus p.2 ++ "&" ++ urlencode (q :: rest)

/-- The tail segment of an urlencoded query: every parameter rendered as
an ampersand followed by its encoded key=value pair. -/
def ampJoin : List (String × String) → String
  | [] => ""
  | p :: rest => "&" ++ quote_plus p.1 ++ "=" ++ quote_plus p.2 ++ ampJoin rest

/-- Modelled from the spec: section 4.3, authorizationUrl of the absent
Fief class. Parameters response_type, client_id and redirect_uri always
come first in this order, then state and scope when given (scope joined
with spaces), then the extra parameters in caller-supplied order; the
result is the authorization endpoint followed by the urlencoded query.
No transport is involved. -/
def auth_url (c : FiefClient) (redirect_uri : String) (state : Option String)
    (scope : Option (List String)) (extras_params : List (String × String)) : String :=
  let params :=
    [("response_type", "code"), ("client_id", c.client_id), ("redirect_uri", redirect_uri)]
    ++ (match state with | none => [] | some s => [("state", s)])
    ++ (match scope with | none => [] | some l => [("scope", String.intercalate " " l)])
    ++ extras_params
  c.base_url ++ "/auth/authorize?" ++ urlencode params

/-- Modelled from the spec: the provider token endpoint response consumed
by authCallback and authRefreshToken: raw access token, the id token in
compact form, token type, optional expiry and refresh token. -/
structure TokenPayload where
  access_token : String
  id_token : Token
  token_type : String
  expires_in : Option Nat
  refresh_token : Option String
  deriving DecidableEq, Repr

/-- Modelled from the spec: the HTTP transport collaborator of section 6
as a deterministic oracle: the token endpoint maps a form body to a
payload or an HTTP error (status and body), the userinfo endpoint maps a
bearer token to a profile or an HTTP error. -/
structure Transport where
  token_endpoint : List (String × String) → Except (Nat × String) TokenPayload
  userinfo_endpoint : String → Except (Nat × String) FiefUserInfo

/-- One outbound network call of the flow client, recorded so that the
purity of the URL construction can be stated. -/
inductive NetCall
  | tokenRequest (form : List (String × String))
  | userinfoRequest (access_token : String)
  deriving DecidableEq, Repr

/-- Modelled from the spec: errors surfaced by the network-bound flow
operations: a validation failure on the returned id token, or a
transport HTTPError carrying status and body (section 7). -/
inductive FlowError
  | IdTokenInvalid
  | HTTPError (status : Nat) (body : String)
  deriving DecidableEq, Repr

/-- Modelled from the spec: the blocking client's auth_url, the pure URL
construction paired with the (empty) list of network calls it makes. -/
def Fief_auth_url (c : FiefClient) (t : Transport) (redirect_uri : String)
    (state : Option String) (scope : Option (List String))
    (extras_params : List (String × String)) : String × List NetCall :=
  (auth_url c redirect_uri state scope extras_params, [])

/-- Modelled from the spec: the blocking client's userinfo: a
bearer-authenticated GET against the profile endpoint, no local
validation beyond transport status checking. -/
def Fief_userinfo (c : FiefClient) (t : Transport) (access_token : String) :
    Except FlowError FiefUserInfo × List NetCall :=
  match t.userinfo_endpoint access_token with
  | .error e => (.error (.HTTPError e.1 e.2), [.userinfoRequest access_token])
  | .ok ui => (.ok ui, [.userinfoRequest access_token])

/-- Modelled from the spec: the blocking client's auth_callback:
exchange the authorization code at the token endpoint, decode and verify
the returned id token (fail on an unverifiable id token), then fetch the
profile via the userinfo endpoint with the new access token. -/
def Fief_auth_callback (c : FiefClient) (t : Transport) (code : String)
    (redirect_uri : String) :
    Except FlowError (TokenPayload × FiefUserInfo) × List NetCall :=
  let form := [("grant_type", "authorization_code"), ("code", code),
    ("redirect_uri", redirect_uri)]
  match t.token_endpoint form with
  | .error e => (.error (.HTTPError e.1 e.2), [.tokenRequest form])
  | .ok payload =>
    match decodeToken c payload.id_token with
    | .error _ => (.error .IdTokenInvalid, [.tokenRequest form])
    | .ok _ =>
      match t.userinfo_endpoint payload.access_token with
      | .error e => (.error (.HTTPError e.1 e.2),
          [.tokenRequest form, .userinfoRequest payload.access_token])
      | .ok ui => (.ok (payload, ui),
          [.tokenRequest form, .userinfoRequest payload.access_token])

/-- Modelled from the spec: the blocking client's auth_refresh_token:
same post-processing as auth_callback but against the refresh grant. -/
def Fief_auth_refresh_token (c : FiefClient) (t : Transport)
    (refresh_token : String) (scope : Option (List String)) :
    Except FlowError (TokenPayload × FiefUserInfo) × List NetCall :=
  let form := [("grant_type", "refresh_token"), ("refresh_token", refresh_token)]
    ++ (match scope with | none => [] | some l => [("scope", String.intercalate " " l)])
  match t.token_endpoint form with
  | .error e => (.error (.HTTPError e.1 e.2), [.tokenRequest form])
  | .ok payload =>
    match decodeToken c payload.id_token with
    | .error _ => (.error .IdTokenInvalid, [.tokenRequest form])
    | .ok _ =>
      match t.userinfo_endpoint payload.access_token with
      | .error e => (.error (.HTTPError e.1 e.2),
          [.tokenRequest form, .userinfoRequest payload.access_token])
      | .ok ui => (.ok (payload, ui),
          [.tokenRequest form, .userinfoRequest payload.access_token])

/-- Modelled from the spec: the blocking client's validate_access_token:
decode then validate entirely locally, no network call on this path. -/
def Fief_validate_access_token (c : FiefClient) (t : Transport) (tok : Token)
    (required_scope : List String) (now : Nat) :
    Except FiefError FiefAccessTokenInfo × List NetCall :=
  (validate_access_token c tok required_scope now, [])

/-- Modelled from the spec: a suspended computation, the shallow shape of
the coroutine a FiefAsync method returns; forcing it runs the work. -/
def Async (α : Type) : Type := Unit → α

/-- Force a suspended computation. -/
def Async.run (x : Async α) : α := x ()

/-- Modelled from the spec: the suspend-capable client's auth_url, with
the same construction logic written out in suspended form. -/
def FiefAsync_auth_url (c : FiefClient) (t : Transport) (redirect_uri : String)
    (state : Option String) (scope : Option (List String))
    (extras_params : List (String × String)) : Async (String × List NetCall) :=
  fun _ =>
    let params :=
      [("response_type", "code"), ("client_id", c.client_id), ("redirect_uri", redirect_uri)]
      ++ (match state with | none => [] | some s => [("state", s)])
      ++ (match scope with | none => [] | some l => [("scope", String.intercalate " " l)])
      ++ extras_params
    (c.base_url ++ "/auth/authorize?" ++ urlencode params, [])

/-- Modelled from the spec: the suspend-capable client's userinfo, with
the blocking client's logic written out in suspended form. -/
def FiefAsync_userinfo (c : FiefClient) (t : Transport) (access_token : String) :
    Async (Except FlowError FiefUserInfo × List NetCall) :=
  fun _ =>
    match t.userinfo_endpoint access_token with
    | .error e => (.error (.HTTPError e.1 e.2), [.userinfoRequest access_token])
    | .ok ui => (.ok ui, [.userinfoRequest access_token])

/-- Modelled from the spec: the suspend-capable client's auth_callback,
with the blocking client's logic written out in suspended form. -/
def FiefAsync_auth_callback (c : FiefClient) (t : Transport) (code : String)
    (redirect_uri : String) :
    Async (Except FlowError (TokenPayload × FiefUserInfo) × List NetCall) :=
  fun _ =>
    let form := [("grant_type", "authorization_code"), ("code", code),
      ("redirect_uri", redirect_uri)]
    match t.token_endpoint form with
    | .error e => (.error (.HTTPError e.1 e.2), [.tokenRequest form])
    | .ok payload =>
      match decodeToken c payload.id_token with
      | .error _ => (.error .IdTokenInvalid, [.tokenRequest form])
      | .ok _ =>
        match t.userinfo_endpoint payload.access_token with
        | .error e => (.error (.HTTPError e.1 e.2),
            [.tokenRequest form, .userinfoRequest payload.access_token])
        | .ok ui => (.ok (payload, ui),
            [.tokenRequest form, .userinfoRequest payload.access_token])

/-- Modelled from the spec: the suspend-capable client's
auth_refresh_token, with the blocking client's logic written out in
suspended form. -/
def FiefAsync_auth_refresh_token (c : FiefClient) (t : Transport)
    (refresh_token : String) (scope : Option (List String)) :
    Async (Except FlowError (TokenPayload × FiefUserInfo) × List NetCall) :=
  fun _ =>
    let form := [("grant_type", "refresh_token"), ("refresh_token", refresh_token)]
      ++ (match scope with | none => [] | some l => [("scope", String.intercalate " " l)])
    match t.token_endpoint form with
    | .error e => (.error (.HTTPError e.1 e.2), [.tokenRequest form])
    | .ok payload =>
      match decodeToken c payload.id_token with
      | .error _ => (.error .IdTokenInvalid, [.tokenRequest form])
      | .ok _ =>
        match t.userinfo_endpoint payload.access_token with
        | .error e => (.error (.HTTPError e.1 e.2),
            [.tokenRequest form, .userinfoRequest payload.access_token])
        | .ok ui => (.ok (payload, ui),
            [.tokenRequest form, .userinfoRequest payload.access_token])

/-- Modelled from the spec: the suspend-capable client's
validate_access_token, with the blocking client's logic written out in
suspended form. -/
def FiefAsync_validate_access_token (c : FiefClient) (t : Transport) (tok : Token)
    (required_scope : List String) (now : Nat) :
    Async (Except FiefError FiefAccessTokenInfo × List NetCall) :=
  fun _ =>
    match decodeToken c tok with
    | .error e => (.error e, [])
    | .ok claims => (validateClaims claims tok.raw required_scope now, [])

/-- One scalar JSON value, as found in a FiefTokenResponse field. -/
inductive JsonScalar
  | str (s : String)
  | num (n : Int)
  | null
  deriving DecidableEq, Repr

/-- Lowercase hexadecimal digit, as json.dumps emits in escapes. -/
def hexDigitLower (n : Nat) : Char :=
  if n < 10 then Char.ofNat (48 + n) else Char.ofNat (87 + n)

/-- Four lowercase hexadecimal digits, the tail of a JSON escape. -/
def hex4 (n : Nat) : String :=
  String.mk [hexDigitLower (n / 4096 % 16), hexDigitLower (n / 256 % 16),
    hexDigitLower (n / 16 % 16), hexDigitLower (n % 16)]

/-- JSON escape of one character as Python json.dumps with ensure_ascii
does: two-character escapes for quote, backslash and the common control
characters, unicode escapes for remaining control and non-ASCII
characters (surrogate pairs above the basic plane), the character itself
otherwise. -/
def jsonEscapeChar (ch : Char) : String :=
  if ch = Char.ofNat 34 then "\\\""
  else if ch = Char.ofNat 92 then "\\\\"
  else if ch = Char.ofNat 10 then "\\n"
  else if ch = Char.ofNat 13 then "\\r"
  else if ch = Char.ofNat 9 then "\\t"
  else if ch = Char.ofNat 8 then "\\b"
  else if ch = Char.ofNat 12 then "\\f"
  else if ch.toNat < 32 then "\\u" ++ hex4 ch.toNat
  else if ch.toNat < 127 then String.singleton ch
  else if ch.toNat < 65536 then "\\u" ++ hex4 ch.toNat
  else
    "\\u" ++ hex4 (55296 + (ch.toNat - 65536) / 1024)
      ++ "\\u" ++ hex4 (56320 + (ch.toNat - 65536) % 1024)

/-- JSON serialization of a string: quoted, characters escaped. -/
def jsonString (s : String) : String :=
  "\"" ++ String.join (s.toList.map jsonEscapeChar) ++ "\""

/-- JSON serialization of a scalar; None serializes as null. -/
def JsonScalar.dump : JsonScalar → String
  | .str s => jsonString s
  | .num n => toString n
  | .null => "null"

/-- The comma-separated body of a serialized flat JSON object: each
field rendered as quoted key, colon, space, value. -/
def jsonFieldsDump : List (String × JsonScalar) → String
  | [] => ""
  | [f] => jsonString f.1 ++ ": " ++ f.2.dump
  | f :: g :: rest => jsonString f.1 ++ ": " ++ f.2.dump ++ ", " ++ jsonFieldsDump (g :: rest)

/-- Modelled from the spec: Python json.dumps with its default
separators over a flat JSON object given as an ordered field list, the
shape a FiefTokenResponse serializes to. -/
def jsonDumpsObj (fields : List (String × JsonScalar)) : String :=
  "\x7b" ++ jsonFieldsDump fields ++ "\x7d"

/-- Modelled from the spec: the TokenResponse of section 3
(FiefTokenResponse, a typed dictionary in the absent module): access
token, id token, token type, expiry in seconds, optional refresh token,
in that key insertion order. -/
structure FiefTokenResponse where
  access_token : String
  id_token : String
  token_type : String
  expires_in : Int
  refresh_token : Option String
  deriving DecidableEq, Repr

/-- The mapping a FiefTokenResponse denotes: its five keys in insertion
order, an absent refresh token denoting the null value. -/
def FiefTokenResponse.pairs (tr : FiefTokenResponse) : List (String × JsonScalar) :=
  [("access_token", .str tr.access_token), ("id_token", .str tr.id_token),
   ("token_type", .str tr.token_type), ("expires_in", .num tr.expires_in),
   ("refresh_token", match tr.refresh_token with | none => .null | some r => .str r)]

/-- Concrete client fixture mirroring the unit-test configuration
(provider base URL, CLIENT_ID, CLIENT_SECRET, no decryption key), with
one trusted signing key under key id KID and RS256 expected. -/
def testClient : FiefClient :=
  ⟨"https://bretagne.fief.dev", "CLIENT_ID", "CLIENT_SECRET", none,
    [("KID", "SIGKEY")], "RS256"⟩

/-- Concrete client fixture configured with the decryption key ENCKEY,
mirroring the encryption-key client of the unit tests. -/
def testClientEnc : FiefClient :=
  ⟨"https://bretagne.fief.dev", "CLIENT_ID", "CLIENT_SECRET", some "ENCKEY",
    [("KID", "SIGKEY")], "RS256"⟩

/-- Concrete signed access-token fixture: subject USER_ID, granted
scopes openid and offline_access, expiring at time 1000, signed by the
trusted key with the declared algorithm. -/
def testToken : JWSToken :=
  ⟨"RS256", "KID", ⟨some "USER_ID", some "openid offline_access", some 1000⟩,
    ⟨"SIGKEY", "RS256"⟩, "RAW"⟩

/-- Concrete expired token fixture (exp 0), mirroring the generate_token
fixture called with exp=0 in the unit tests. -/
def testExpiredToken : JWSToken :=
  ⟨"RS256", "KID", ⟨some "USER_ID", some "openid", some 0⟩,
    ⟨"SIGKEY", "RS256"⟩, "RAWEXP"⟩

/-- Concrete token fixture signed by a foreign key under an unexpected
HS256 algorithm, mirroring the invalid-signature token of the tests. -/
def testBadToken : JWSToken :=
  ⟨"HS256", "KID", ⟨some "1234567890", none, none⟩,
    ⟨"OTHERKEY", "HS256"⟩, "RAWBAD"⟩

theorem ampJoin_append (l1 l2 : List (String × String)) :
    ampJoin (l1 ++ l2) = ampJoin l1 ++ ampJoin l2 := by
  induction l1 with
  | nil => simp [ampJoin, String.empty_append]
  | cons p rest ih => simp [ampJoin, ih, String.append_assoc]

theorem urlencode_cons (p : String × String) (l : List (String × String)) :
    urlencode (p :: l) = quote_plus p.1 ++ "=" ++ quote_plus p.2 ++ ampJoin l := by
  induction l generalizing p with
  | nil => simp [urlencode, ampJoin, String.append_empty]
  | cons q rest ih =>
    rw [show urlencode (p :: q :: rest) =
      quote_plus p.1 ++ "=" ++ quote_plus p.2 ++ "&" ++ urlencode (q :: rest) from rfl, ih q]
    simp [ampJoin, String.append_assoc]

theorem qp_response_type : quote_plus "response_type" = "response_type" := by decide

theorem qp_code : quote_plus "code" = "code" := by decide

theorem qp_client_id : quote_plus "client_id" = "client_id" := by decide

theorem qp_redirect_uri : quote_plus "redirect_uri" = "redirect_uri" := by decide

theorem qp_state_key : quote_plus "state" = "state" := by decide

theorem qp_scope_key : quote_plus "scope" = "scope" := by decide

theorem merge_head (s : String) :
    "/auth/authorize?" ++ ("response_type=code" ++ ("&client_id=" ++ s)) =
      "/auth/authorize?response_type=code&client_id=" ++ s := by
  simp only [← String.append_assoc]
  exact congrArg (· ++ s) (by decide)

theorem merge_redirect (s : String) :
    "&" ++ ("redirect_uri" ++ ("=" ++ s)) = "&redirect_uri=" ++ s := by
  simp only [← String.append_assoc]
  exact congrArg (· ++ s) (by decide)

theorem merge_state (s : String) :
    "&" ++ ("state" ++ ("=" ++ s)) = "&state=" ++ s := by
  simp only [← String.append_assoc]
  exact congrArg (· ++ s) (by decide)

theorem merge_scope (s : String) :
    "&" ++ ("scope" ++ ("=" ++ s)) = "&scope=" ++ s := by
  simp only [← String.append_assoc]
  exact congrArg (· ++ s) (by decide)

/-- Claim C1: for a token signed by a key the client trusts, with exp in
the future and sub and scope claims present, validate_access_token
succeeds whenever the required scopes are contained in the granted
scopes, returning an AccessTokenInfo whose subject id is the token's sub
claim and whose scope field is the full granted-scope sequence (not just
the required subset) together with the raw token string; and it fails
with TokenMissingScope naming the missing scopes whenever some required
scope is absent from the granted scopes. -/
theorem validate_access_token_round_trip
    (c : FiefClient) (t : JWSToken) (required_scope : List String) (now : Nat)
    (s sc : String)
    (hsub : t.claims.sub = some s)
    (hscope : t.claims.scope = some sc)
    (hkey : SigningKeySet.find t.kid c.signing_keys = some t.sig.key)
    (halg : t.alg = c.expected_alg)
    (hsigalg : t.sig.alg = t.alg)
    (hexp : ∀ e, t.claims.exp = some e → now < e) :
    ((∀ r ∈ required_scope, r ∈ splitScopes sc) →
      validate_access_token c (.signed t) required_scope now =
        .ok ⟨s, splitScopes sc, t.raw⟩) ∧
    ((∃ r ∈ required_scope, r ∉ splitScopes sc) →
      validate_access_token c (.signed t) required_scope now =
        .error (.TokenMissingScope
          (required_scope.filter (fun r => decide (r ∉ splitScopes sc)))) ∧
      required_scope.filter (fun r => decide (r ∉ splitScopes sc)) ≠ []) := by
  have hdec : decodeToken c (.signed t) = .ok t.claims := by
    simp [decodeToken, decodeJWS, halg, hkey, hsigalg]
  have hexpf : expiredAt t.claims now = false := by
    unfold expiredAt
    cases hE : t.claims.exp with
    | none => rfl
    | some e => simp [Nat.not_le.mpr (hexp e hE)]
  constructor
  · intro hall
    simp [validate_access_token, hdec, validateClaims, hexpf, hsub, hscope, Token.raw]
    exact hall
  · rintro ⟨r, hr, hnr⟩
    have hm : r ∈ required_scope.filter (fun x => decide (x ∉ splitScopes sc)) :=
      List.mem_filter.mpr ⟨hr, by simpa using hnr⟩
    refine ⟨?_, List.ne_nil_of_mem hm⟩
    simp [validate_access_token, hdec, validateClaims, hexpf, hsub, hscope]
    exact ⟨r, hr, hnr⟩

/-- Witness for C1, at the inputs of the unit tests test_valid and
test_missing_scope. -/
theorem validate_access_token_round_trip_witness :
    validate_access_token testClient (.signed testToken) ["openid"] 100 =
      .ok ⟨"USER_ID", ["openid", "offline_access"], "RAW"⟩ ∧
    validate_access_token testClient (.signed testToken) ["REQUIRED"] 100 =
      .error (.TokenMissingScope ["REQUIRED"]) := by
  constructor
  · exact (validate_access_token_round_trip testClient testToken ["openid"] 100
      "USER_ID" "openid offline_access" rfl rfl (by decide) rfl rfl
      (by intro e he; simp [testToken] at he; omega)).1 (by decide)
  · exact ((validate_access_token_round_trip testClient testToken ["REQUIRED"] 100
      "USER_ID" "openid offline_access" rfl rfl (by decide) rfl rfl
      (by intro e he; simp [testToken] at he; omega)).2
      ⟨"REQUIRED", by decide, by decide⟩).1

/-- Claim C2: an otherwise well-formed and correctly signed token (its
decode succeeds) whose exp claim is present and less than or equal to
the current time fails validation with TokenExpired; the comparison is
a strict less-or-equal, so a token expiring at exactly now is expired. -/
theorem validate_access_token_expired
    (c : FiefClient) (tok : Token) (required_scope : List String) (now e : Nat)
    (claims : Claims)
    (hdec : decodeToken c tok = .ok claims)
    (hexp : claims.exp = some e) (hle : e ≤ now) :
    validate_access_token c tok required_scope now = .error .TokenExpired := by
  simp [validate_access_token, hdec, validateClaims, expiredAt, hexp, hle]

/-- Witness for C2, at the expired fixture (exp 0); also exercised at
exactly now = exp to exhibit the strict less-or-equal boundary. -/
theorem validate_access_token_expired_witness :
    validate_access_token testClient (.signed testExpiredToken) [] 100 =
      .error .TokenExpired ∧
    validate_access_token testClient (.signed testToken) [] 1000 =
      .error .TokenExpired := by
  constructor
  · exact validate_access_token_expired testClient (.signed testExpiredToken) [] 100 0
      testExpiredToken.claims rfl rfl (by decide)
  · exact validate_access_token_expired testClient (.signed testToken) [] 1000 1000
      testToken.claims rfl rfl (by decide)

/-- Claim C3: a signed token whose signature does not verify against the
key resolved from the trusted signing key set, or whose header declares
an algorithm other than the one the client expects, fails validation
with TokenInvalid regardless of the claims it carries. -/
theorem validate_access_token_invalid_signature
    (c : FiefClient) (t : JWSToken) (required_scope : List String) (now : Nat)
    (h : t.alg ≠ c.expected_alg ∨
      ∀ k, SigningKeySet.find t.kid c.signing_keys = some k →
        ¬(t.sig.key = k ∧ t.sig.alg = t.alg)) :
    validate_access_token c (.signed t) required_scope now = .error .TokenInvalid := by
  have hJ : decodeJWS c t = .error .TokenInvalid := by
    unfold decodeJWS
    rcases h with h | h
    · simp [h]
    · by_cases halg : t.alg = c.expected_alg
      · cases hf : SigningKeySet.find t.kid c.signing_keys with
        | none => simp [halg, hf]
        | some k =>
          simp [halg, hf]
          intro hk hsa
          exact h k hf ⟨hk, hsa.trans halg.symm⟩
      · simp [halg]
  simp [validate_access_token, decodeToken, hJ]

/-- Witness for C3, at the foreign-key HS256 fixture of the
invalid-signature unit test. -/
theorem validate_access_token_invalid_signature_witness :
    validate_access_token testClient (.signed testBadToken) [] 100 =
      .error .TokenInvalid :=
  validate_access_token_invalid_signature testClient testBadToken [] 100
    (Or.inl (by decide))

/-- Claim C4: an encrypted token decoded by a client with no decryption
key configured fails with TokenInvalid, while the same token decoded by
a client configured with the correct decryption key (its inner signed
token verifying against that client's trusted key) succeeds and yields
the original claim set, its sub value included. -/
theorem decode_encrypted_token
    (c0 c1 : FiefClient) (encKey raw : String) (inner : JWSToken)
    (h0 : c0.encryption_key = none)
    (h1 : c1.encryption_key = some encKey)
    (hkey : SigningKeySet.find inner.kid c1.signing_keys = some inner.sig.key)
    (halg : inner.alg = c1.expected_alg)
    (hsigalg : inner.sig.alg = inner.alg) :
    decodeToken c0 (.encrypted encKey inner raw) = .error .TokenInvalid ∧
    decodeToken c1 (.encrypted encKey inner raw) = .ok inner.claims := by
  constructor
  · simp [decodeToken, h0]
  · simp [decodeToken, h1, decodeJWS, halg, hkey, hsigalg]

/-- Witness for C4, at the encrypted fixture against the keyless client
and the client configured with ENCKEY. -/
theorem decode_encrypted_token_witness :
    decodeToken testClient (.encrypted "ENCKEY" testToken "RAWJWE") =
      .error .TokenInvalid ∧
    decodeToken testClientEnc (.encrypted "ENCKEY" testToken "RAWJWE") =
      .ok testToken.claims :=
  decode_encrypted_token testClient testClientEnc "ENCKEY" "RAWJWE" testToken
    rfl rfl (by decide) rfl rfl

/-- Claim C5: the authentication orchestrator maps a missing credential
to Unauthenticated (status 401); a present credential failing decode or
validation with TokenInvalid or TokenExpired to Unauthenticated (401); a
credential whose validation fails only the scope check to Forbidden
(403); and a credential passing every check to Authorized carrying the
AccessTokenInfo. -/
theorem authenticate_decision_cases
    (c : FiefClient) (tok : Token) (required_scope : List String) (now : Nat) :
    (authenticate c none required_scope now = .Unauthenticated ∧
      (authenticate c none required_scope now).statusCode = 401) ∧
    (∀ e, validate_access_token c tok required_scope now = .error e →
      e = .TokenInvalid ∨ e = .TokenExpired →
      authenticate c (some tok) required_scope now = .Unauthenticated ∧
        (authenticate c (some tok) required_scope now).statusCode = 401) ∧
    (∀ m, validate_access_token c tok required_scope now = .error (.TokenMissingScope m) →
      authenticate c (some tok) required_scope now = .Forbidden ∧
        (authenticate c (some tok) required_scope now).statusCode = 403) ∧
    (∀ info, validate_access_token c tok required_scope now = .ok info →
      authenticate c (some tok) required_scope now = .Authorized info) := by
  refine ⟨⟨rfl, rfl⟩, ?_, ?_, ?_⟩
  · rintro e hv (rfl | rfl) <;>
      simp [authenticate, hv, AuthDecision.statusCode]
  · intro m hv
    simp [authenticate, hv, AuthDecision.statusCode]
  · intro info hv
    simp [authenticate, hv]

/-- Witness for C5: the four decisions at concrete fixtures — absent
credential, expired token, invalid signature, missing scope and a fully
valid token. -/
theorem authenticate_decision_cases_witness :
    authenticate testClient none ["openid"] 100 = .Unauthenticated ∧
    authenticate testClient (some (.signed testExpiredToken)) [] 100 = .Unauthenticated ∧
    authenticate testClient (some (.signed testBadToken)) [] 100 = .Unauthenticated ∧
    authenticate testClient (some (.signed testToken)) ["REQUIRED"] 100 = .Forbidden ∧
    authenticate testClient (some (.signed testToken)) ["openid"] 100 =
      .Authorized ⟨"USER_ID", ["openid", "offline_access"], "RAW"⟩ := by
  refine ⟨(authenticate_decision_cases testClient (.signed testToken) ["openid"] 100).1.1,
    ?_, ?_, ?_, ?_⟩
  · exact ((authenticate_decision_cases testClient (.signed testExpiredToken) [] 100).2.1
      .TokenExpired (by rfl) (Or.inr rfl)).1
  · exact ((authenticate_decision_cases testClient (.signed testBadToken) [] 100).2.1
      .TokenInvalid (by rfl) (Or.inl rfl)).1
  · exact ((authenticate_decision_cases testClient (.signed testToken) ["REQUIRED"] 100).2.2.1
      ["REQUIRED"] (by rfl)).1
  · exact (authenticate_decision_cases testClient (.signed testToken) ["openid"] 100).2.2.2
      ⟨"USER_ID", ["openid", "offline_access"], "RAW"⟩ (by rfl)

/-- Claim C6: starting from an empty identity cache, two consecutive
current-user requests with refresh false for the same validated subject
perform exactly one outbound profile fetch, the second being served the
cached profile; the same sequence with refresh true on the second call
performs a second fetch, returns the fresh profile and writes it to the
cache, the cache being bypassed on read but still written. -/
theorem current_user_cache_coherency (sub : String) (p1 p2 : FiefUserInfo) :
    ((current_user_step false sub p1 ⟨[], 0⟩).1 = p1 ∧
      (current_user_step false sub p2 (current_user_step false sub p1 ⟨[], 0⟩).2).1 = p1 ∧
      (current_user_step false sub p2
        (current_user_step false sub p1 ⟨[], 0⟩).2).2.fetchCount = 1) ∧
    ((current_user_step true sub p2 (current_user_step false sub p1 ⟨[], 0⟩).2).1 = p2 ∧
      (current_user_step true sub p2
        (current_user_step false sub p1 ⟨[], 0⟩).2).2.fetchCount = 2 ∧
      cacheGet sub (current_user_step true sub p2
        (current_user_step false sub p1 ⟨[], 0⟩).2).2.cache = some p2) := by
  simp [current_user_step, cacheGet, cacheSet]

/-- Claim C7: auth_url returns exactly the base authorization endpoint
followed by the query response_type=code, client_id and the
percent-encoded redirect_uri, then the state parameter when given, then
the scope parameter (scopes space-joined, form-encoded so spaces become
pluses) when given, then the extra parameters in caller-supplied order. -/
theorem auth_url_query_contract (c : FiefClient) (redirect_uri : String)
    (state : Option String) (scope : Option (List String))
    (extras_params : List (String × String)) :
    auth_url c redirect_uri state scope extras_params =
      c.base_url ++ "/auth/authorize?response_type=code&client_id="
        ++ quote_plus c.client_id ++ "&redirect_uri=" ++ quote_plus redirect_uri
        ++ (match state with | none => "" | some s => "&state=" ++ quote_plus s)
        ++ (match scope with
           | none => ""
           | some l => "&scope=" ++ quote_plus (String.intercalate " " l))
        ++ ampJoin extras_params := by
  cases state <;> cases scope <;>
    simp [auth_url, urlencode_cons, ampJoin_append, ampJoin, String.append_assoc,
      String.append_empty, String.empty_append, qp_response_type, qp_code, qp_client_id,
      qp_redirect_uri, qp_state_key, qp_scope_key, merge_head, merge_redirect,
      merge_state, merge_scope]

/-- Claim C8: the URL construction is pure: its result is independent of
the transport collaborator (no network call can influence it) and its
recorded network trace is empty, so two calls with the same arguments
return the same string without any transport. -/
theorem auth_url_pure_no_network (c : FiefClient) (t1 t2 : Transport)
    (redirect_uri : String) (state : Option String) (scope : Option (List String))
    (extras_params : List (String × String)) :
    Fief_auth_url c t1 redirect_uri state scope extras_params =
      Fief_auth_url c t2 redirect_uri state scope extras_params ∧
    (Fief_auth_url c t1 redirect_uri state scope extras_params).2 = [] :=
  ⟨rfl, rfl⟩

/-- Claim C9: the blocking client and the suspend-capable client are
behaviourally equivalent: over any transport, forcing each suspended
operation of the async client — auth_url, auth_callback,
auth_refresh_token, userinfo and validate_access_token — returns exactly
the blocking client's result, errors included. -/
theorem fief_async_sync_equivalence (c : FiefClient) (t : Transport) :
    (∀ redirect_uri state scope extras_params,
      (FiefAsync_auth_url c t redirect_uri state scope extras_params).run =
        Fief_auth_url c t redirect_uri state scope extras_params) ∧
    (∀ code redirect_uri, (FiefAsync_auth_callback c t code redirect_uri).run =
        Fief_auth_callback c t code redirect_uri) ∧
    (∀ refresh_token scope, (FiefAsync_auth_refresh_token c t refresh_token scope).run =
        Fief_auth_refresh_token c t refresh_token scope) ∧
    (∀ access_token, (FiefAsync_userinfo c t access_token).run =
        Fief_userinfo c t access_token) ∧
    (∀ tok required_scope now,
      (FiefAsync_validate_access_token c t tok required_scope now).run =
        Fief_validate_access_token c t tok required_scope now) := by
  refine ⟨fun _ _ _ _ => rfl, fun _ _ => rfl, fun _ _ => rfl, fun _ => rfl, ?_⟩
  intro tok required_scope now
  show (match decodeToken c tok with
    | .error e => (Except.error e, ([] : List NetCall))
    | .ok claims => (validateClaims claims tok.raw required_scope now, [])) = _
  unfold Fief_validate_access_token validate_access_token
  cases decodeToken c tok <;> rfl

theorem js_access_token : jsonString "access_token" = "\"access_token\"" := by decide

theorem js_id_token : jsonString "id_token" = "\"id_token\"" := by decide

theorem js_token_type : jsonString "token_type" = "\"token_type\"" := by decide

theorem js_expires_in : jsonString "expires_in" = "\"expires_in\"" := by decide

theorem js_refresh_token : jsonString "refresh_token" = "\"refresh_token\"" := by decide

theorem merge_obj_head (s : String) :
    "\x7b" ++ ("\"access_token\": " ++ s) = "\x7b\"access_token\": " ++ s := by
  simp only [← String.append_assoc]
  exact congrArg (· ++ s) (by decide)

theorem merge_id_token (s : String) :
    ", " ++ ("\"id_token\": " ++ s) = ", \"id_token\": " ++ s := by
  simp only [← String.append_assoc]
  exact congrArg (· ++ s) (by decide)

theorem merge_token_type (s : String) :
    ", " ++ ("\"token_type\": " ++ s) = ", \"token_type\": " ++ s := by
  simp only [← String.append_assoc]
  exact congrArg (· ++ s) (by decide)

theorem merge_expires_in (s : String) :
    ", " ++ ("\"expires_in\": " ++ s) = ", \"expires_in\": " ++ s := by
  simp only [← String.append_assoc]
  exact congrArg (· ++ s) (by decide)

theorem merge_refresh_token (s : String) :
    ", " ++ ("\"refresh_token\": " ++ s) = ", \"refresh_token\": " ++ s := by
  simp only [← String.append_assoc]
  exact congrArg (· ++ s) (by decide)

/-- Claim C10: a FiefTokenResponse serializes as the plain JSON object
holding its five keys in insertion order — access_token, id_token,
token_type, expires_in, refresh_token — with an absent refresh token
rendered as null; at the unit-test values this is exactly the string the
test asserts. -/
theorem fief_token_response_serialization :
    (∀ tr : FiefTokenResponse, jsonDumpsObj tr.pairs =
      "\x7b\"access_token\": " ++ jsonString tr.access_token
        ++ ", \"id_token\": " ++ jsonString tr.id_token
        ++ ", \"token_type\": " ++ jsonString tr.token_type
        ++ ", \"expires_in\": " ++ toString tr.expires_in
        ++ ", \"refresh_token\": "
        ++ (match tr.refresh_token with | none => "null" | some r => jsonString r)
        ++ "\x7d") ∧
    jsonDumpsObj (FiefTokenResponse.pairs ⟨"ACCESS_TOKEN", "ID_TOKEN", "bearer", 3600, none⟩) =
      "\x7b\"access_token\": \"ACCESS_TOKEN\", \"id_token\": \"ID_TOKEN\", \"token_type\": \"bearer\", \"expires_in\": 3600, \"refresh_token\": null\x7d" := by
  constructor
  · intro tr
    obtain ⟨a, i, ty, ex, rt⟩ := tr
    cases rt <;>
      simp [jsonDumpsObj, FiefTokenResponse.pairs, jsonFieldsDump, JsonScalar.dump,
        String.append_assoc, js_access_token, js_id_token, js_token_type, js_expires_in,
        js_refresh_token, merge_obj_head, merge_id_token, merge_token_type,
        merge_expires_in, merge_refresh_token]
  · decide
